import Mathlib

/-!
Shallow embedding of `src/pdf_to_universal_xml.py` (PDF → Universal XML
converter).  Pure string manipulation, the table-engine chain, the page
pipeline, manifest assembly and the retention manager are translated into
executable Lean definitions; external services (PyMuPDF, tesseract, camelot,
tabula, the file system clock) are modelled as explicit inputs.
-/

namespace PdfXml

/-! String cleaning (from `_append_page`, lines 301-306)

`clean_xml_text` embeds the regex substitution
`re.sub(r'[\x00-\x08\x0B\x0C\x0E-\x1F]', '', s)`;
`removeCR` embeds `s.replace("\r", "")`; `pyStrip` embeds `str.strip()`
(the source only ever strips ASCII whitespace in practice; Python would in
addition strip rarer Unicode whitespace, which no claim here touches). -/

def isStrippedCtrl (c : Char) : Bool :=
  (c.toNat ≤ 0x08) || (c.toNat == 0x0B) || (c.toNat == 0x0C) ||
    (0x0E ≤ c.toNat && c.toNat ≤ 0x1F)

def clean_xml_text (s : String) : String :=
  ⟨s.data.filter (fun c => !(isStrippedCtrl c))⟩

def removeCR (s : String) : String :=
  ⟨s.data.filter (fun c => c != '\r')⟩

def isPySpace (c : Char) : Bool :=
  (c == ' ') || (c == '\t') || (c == '\n') || (c == '\r') ||
    (c.toNat == 0x0B) || (c.toNat == 0x0C)

def pyStrip (s : String) : String :=
  ⟨(((s.data.dropWhile isPySpace).reverse.dropWhile isPySpace).reverse)⟩

/-- Line 305: `clean_xml_text((text or "").replace("\r", "").strip())`. -/
def cleanedPageText (text : String) : String :=
  clean_xml_text (pyStrip (removeCR text))

/-- Embeds `len(s.strip())`, the trimmed character count used by the OCR
heuristic (lines 388 and 391). -/
def trimLen (s : String) : Nat :=
  (pyStrip s).data.length

/-! Decimal rendering and zero-padding

Embeds Python `str(n)` and the format specifiers `{:06d}` / `{:03d}` used to
build output file names (lines 113, 136, 161).  The digit recursion is given
fuel so that it reduces inside the kernel. -/

def digitChar : Nat → Char
  | 0 => '0' | 1 => '1' | 2 => '2' | 3 => '3' | 4 => '4'
  | 5 => '5' | 6 => '6' | 7 => '7' | 8 => '8' | _ => '9'

def natDigitsF : Nat → Nat → List Char
  | 0, _ => []
  | fuel + 1, n => if n = 0 then [] else natDigitsF fuel (n / 10) ++ [digitChar (n % 10)]

def natDigits (n : Nat) : List Char :=
  natDigitsF n n

/-- Embeds Python `str(n)` for a non-negative integer. -/
def natRepr (n : Nat) : String :=
  if n = 0 then "0" else ⟨natDigits n⟩

/-- Embeds the Python format `{n:0<width>d}`: decimal digits of `n`,
left-padded with zeros to a minimum width. -/
def padNum (width n : Nat) : String :=
  ⟨List.replicate (width - (natRepr n).data.length) '0' ++ (natRepr n).data⟩

/-- Table output file name, from line 136/161:
`f"page_{page_number_1based:06d}_table_{global_table_index:03d}.xml"`. -/
def tableFileName (page gidx : Nat) : String :=
  "page_" ++ padNum 6 page ++ "_table_" ++ padNum 3 gidx ++ ".xml"

/-- Image output file name, from line 113:
`f"page_{page_index+1:06d}_img_{img_idx+1:03d}.png"`. -/
def imageFileName (page_index img_idx : Nat) : String :=
  "page_" ++ padNum 6 (page_index + 1) ++ "_img_" ++ padNum 3 (img_idx + 1) ++ ".png"

/-! Correctness of the decimal rendering -/

def digitVal (c : Char) : Nat := c.toNat - 48

def digitsToNat (l : List Char) : Nat :=
  l.foldl (fun acc c => acc * 10 + digitVal c) 0

theorem digitVal_digitChar (d : Nat) (hd : d < 10) : digitVal (digitChar d) = d := by
  interval_cases d <;> rfl

theorem foldl_digits_append (l : List Char) (c : Char) (a : Nat) :
    (l ++ [c]).foldl (fun acc x => acc * 10 + digitVal x) a =
      (l.foldl (fun acc x => acc * 10 + digitVal x) a) * 10 + digitVal c := by
  simp [List.foldl_append]

theorem natDigitsF_parse (fuel : Nat) :
    ∀ n a, n ≤ fuel →
      (natDigitsF fuel n).foldl (fun acc c => acc * 10 + digitVal c) a =
        a * 10 ^ (natDigitsF fuel n).length + n := by
  induction fuel with
  | zero =>
    intro n a hn
    interval_cases n
    simp [natDigitsF]
  | succ fuel ih =>
    intro n a hn
    by_cases h0 : n = 0
    · subst h0; simp [natDigitsF]
    · have hdiv : n / 10 ≤ fuel := by
        have : n / 10 < n := Nat.div_lt_self (Nat.pos_of_ne_zero h0) (by norm_num)
        omega
      have hrec := ih (n / 10) a hdiv
      simp only [natDigitsF, if_neg h0]
      rw [foldl_digits_append, hrec, digitVal_digitChar _ (Nat.mod_lt _ (by norm_num))]
      have hlen : (natDigitsF fuel (n / 10) ++ [digitChar (n % 10)]).length =
          (natDigitsF fuel (n / 10)).length + 1 := by simp
      rw [hlen, pow_succ]
      have := Nat.div_add_mod n 10
      ring_nf
      omega

theorem digitsToNat_natRepr (n : Nat) : digitsToNat (natRepr n).data = n := by
  by_cases h0 : n = 0
  · subst h0; decide
  · have := natDigitsF_parse n n 0 (le_refl n)
    simpa [natRepr, h0, natDigits, digitsToNat] using this

theorem digitsToNat_replicate_zero (k : Nat) (l : List Char) :
    digitsToNat (List.replicate k '0' ++ l) = digitsToNat l := by
  induction k with
  | zero => simp
  | succ k ih =>
    simp only [List.replicate_succ, List.cons_append]
    show (List.replicate k '0' ++ l).foldl _ (0 * 10 + digitVal '0') = _
    have : (0 : Nat) * 10 + digitVal '0' = 0 := by decide
    rw [this]
    exact ih

theorem digitsToNat_padNum (w n : Nat) : digitsToNat (padNum w n).data = n := by
  show digitsToNat (List.replicate _ '0' ++ (natRepr n).data) = n
  rw [digitsToNat_replicate_zero]
  exact digitsToNat_natRepr n

theorem padNum_injective (w a b : Nat) (h : padNum w a = padNum w b) : a = b := by
  have := digitsToNat_padNum w a
  rw [h, digitsToNat_padNum] at this
  omega

theorem natDigitsF_length (fuel : Nat) :
    ∀ n k, n ≤ fuel → n < 10 ^ k → (natDigitsF fuel n).length ≤ k := by
  induction fuel with
  | zero =>
    intro n k hn _
    interval_cases n
    simp [natDigitsF]
  | succ fuel ih =>
    intro n k hn hk
    by_cases h0 : n = 0
    · subst h0; simp [natDigitsF]
    · have hkpos : 1 ≤ k := by
        by_contra hc
        push_neg at hc
        interval_cases k
        omega
      have hdiv : n / 10 ≤ fuel := by
        have : n / 10 < n := Nat.div_lt_self (Nat.pos_of_ne_zero h0) (by norm_num)
        omega
      have hdivlt : n / 10 < 10 ^ (k - 1) := by
        rw [Nat.div_lt_iff_lt_mul (by norm_num : 0 < 10)]
        calc n < 10 ^ k := hk
        _ = 10 ^ (k - 1) * 10 := by
            rw [← pow_succ]
            congr 1
            omega
      have := ih (n / 10) (k - 1) hdiv hdivlt
      simp only [natDigitsF, if_neg h0, List.length_append, List.length_cons,
        List.length_nil]
      omega

theorem natRepr_length_le (n k : Nat) (hn : n < 10 ^ k) (hk : 1 ≤ k) :
    (natRepr n).data.length ≤ k := by
  by_cases h0 : n = 0
  · subst h0
    show ([('0' : Char)]).length ≤ k
    simpa using hk
  · simp only [natRepr, if_neg h0]
    exact natDigitsF_length n n k (le_refl n) hn

theorem padNum_length (w n : Nat) (hn : n < 10 ^ w) (hw : 1 ≤ w) :
    (padNum w n).data.length = w := by
  have hle := natRepr_length_le n w hn hw
  show (List.replicate _ '0' ++ (natRepr n).data).length = w
  simp only [List.length_append, List.length_replicate]
  omega

theorem padNum_data_injective (w a b : Nat) (h : (padNum w a).data = (padNum w b).data) :
    a = b := by
  have := digitsToNat_padNum w a
  rw [h, digitsToNat_padNum] at this
  omega

/-- In-practice collision freedom of table file names: for page numbers below
10^6 and table indices below 10^3 (the widths of the `{:06d}` / `{:03d}`
fields), distinct (page, index) pairs give distinct file names. -/
theorem tableFileName_injOn (p p' i i' : Nat)
    (hp : p < 10 ^ 6) (hp' : p' < 10 ^ 6) (hi : i < 10 ^ 3) (hi' : i' < 10 ^ 3)
    (h : tableFileName p i = tableFileName p' i') : p = p' ∧ i = i' := by
  have hd : (tableFileName p i).data = (tableFileName p' i').data := by rw [h]
  simp only [tableFileName, String.data_append, List.append_assoc] at hd
  have h1 := List.append_cancel_left hd
  have hlen6 : (padNum 6 p).data.length = (padNum 6 p').data.length := by
    rw [padNum_length 6 p hp (by norm_num), padNum_length 6 p' hp' (by norm_num)]
  obtain ⟨hpad6, h2⟩ := List.append_inj h1 hlen6
  have h3 := List.append_cancel_left h2
  have hlen3 : (padNum 3 i).data.length = (padNum 3 i').data.length := by
    rw [padNum_length 3 i hi (by norm_num), padNum_length 3 i' hi' (by norm_num)]
  obtain ⟨hpad3, _⟩ := List.append_inj h3 hlen3
  exact ⟨padNum_data_injective 6 p p' hpad6, padNum_data_injective 3 i i' hpad3⟩

/-! Environment and table-extraction model (`_extract_tables_page`, lines 126-186)

The two table engines (camelot, tabula) are external black boxes; a page's
`PageTableResults` records how many tables each engine attempt yields for the
page (an attempt that raises is already "zero tables", since the code swallows
the exception and returns what was exported before it — modelled as a clean
count).  Availability flags embed the module-level `CAMELOT_AVAILABLE` /
`TABULA_AVAILABLE` / `OCR_AVAILABLE` probes (lines 34-57). -/

structure Env where
  ocr_available : Bool
  camelot_available : Bool
  tabula_available : Bool
  deriving DecidableEq, Inhabited

structure PageTableResults where
  camelot_lattice : Nat
  camelot_stream : Nat
  tabula_tables : Nat
  deriving DecidableEq, Inhabited

structure TableRec where
  engine : String
  path : String
  index : Nat
  page : Nat
  deriving DecidableEq, Inhabited

/-- One export loop (`export_tables_camelot` / `export_tables_tabula`):
`cnt` tables are written as `tables_dir / tableFileName page idx` for
consecutive values of the shared counter starting at `startIdx`. -/
def mkTableRecs (engine : String) (tables_dir : String) (page cnt startIdx : Nat) :
    List TableRec :=
  (List.range cnt).map fun j =>
    { engine := engine
      path := tables_dir ++ "/" ++ tableFileName page (startIdx + j)
      index := startIdx + j
      page := page }

/-- The `for engine in table_order` loop of `_extract_tables_page`
(lines 174-184), threading the counter `global_table_index` (`gidx`).
Note the counter is a **local** of `_extract_tables_page`, initialised to 1 on
every call (line 128); `extractTablesLoop order gidx` is the loop continuation
with current counter value `gidx`. -/
def extractTablesLoop (env : Env) (res : PageTableResults) (tables_dir : String)
    (page : Nat) : List String → Nat → List TableRec
  | [], _ => []
  | e :: rest, gidx =>
    if e = "camelot" ∧ env.camelot_available then
      -- line 176: export_tables_camelot("lattice") or export_tables_camelot("stream")
      let latRecs := mkTableRecs "camelot-lattice" tables_dir page res.camelot_lattice gidx
      let got := if latRecs.isEmpty then
          mkTableRecs "camelot-stream" tables_dir page res.camelot_stream
            (gidx + res.camelot_lattice)
        else latRecs
      if got.isEmpty then
        extractTablesLoop env res tables_dir page rest
          (gidx + res.camelot_lattice + res.camelot_stream)
      else got
    else if e = "tabula" ∧ env.tabula_available then
      let got := mkTableRecs "tabula" tables_dir page res.tabula_tables gidx
      if got.isEmpty then
        extractTablesLoop env res tables_dir page rest (gidx + res.tabula_tables)
      else got
    else
      extractTablesLoop env res tables_dir page rest gidx

/-- `_extract_tables_page` (lines 126-186).  The counter starts at 1 on each
call, i.e. on each page. -/
def extract_tables_page (env : Env) (res : PageTableResults) (table_order : List String)
    (tables_dir : String) (page_number_1based : Nat) : List TableRec :=
  extractTablesLoop env res tables_dir page_number_1based table_order 1

/-! Specification-side chain (for the refinement claim C7)

`specTableEngineChain` is written from the spec's words (§4.2): engines are
tried strictly in the configured order, an engine unavailable at the
environment level is skipped, the first engine yielding one or more tables
wins and later engines are not tried; the first engine tries lattice-style
detection and falls back to stream-style detection before the chain moves on. -/

def specEngineYield (env : Env) (res : PageTableResults) (e : String) :
    Option (String × Nat) :=
  if e = "camelot" then
    if env.camelot_available then
      if res.camelot_lattice > 0 then some ("camelot-lattice", res.camelot_lattice)
      else if res.camelot_stream > 0 then some ("camelot-stream", res.camelot_stream)
      else none
    else none
  else if e = "tabula" then
    if env.tabula_available then
      if res.tabula_tables > 0 then some ("tabula", res.tabula_tables) else none
    else none
  else none

def specTableEngineChain (env : Env) (res : PageTableResults) (tables_dir : String)
    (page : Nat) : List String → List TableRec
  | [] => []
  | e :: rest =>
    match specEngineYield env res e with
    | some (tag, k) => mkTableRecs tag tables_dir page k 1
    | none => specTableEngineChain env res tables_dir page rest

theorem mkTableRecs_isEmpty (engine tables_dir : String) (page cnt startIdx : Nat) :
    (mkTableRecs engine tables_dir page cnt startIdx).isEmpty = (cnt == 0) := by
  cases cnt <;> simp [mkTableRecs, List.range_succ]

theorem extract_eq_specChain (env : Env) (res : PageTableResults) (tables_dir : String)
    (page : Nat) (order : List String) :
    extract_tables_page env res order tables_dir page =
      specTableEngineChain env res tables_dir page order := by
  show extractTablesLoop env res tables_dir page order 1 = _
  induction order with
  | nil => rfl
  | cons e rest ih =>
    by_cases hc : e = "camelot" ∧ env.camelot_available
    · rcases hc with ⟨he, hav⟩
      subst he
      rcases Nat.eq_zero_or_pos res.camelot_lattice with hl | hl
      · rcases Nat.eq_zero_or_pos res.camelot_stream with hs | hs
        · simp [extractTablesLoop, specTableEngineChain, specEngineYield, hav, hl, hs,
            mkTableRecs_isEmpty, ih]
        · simp [extractTablesLoop, specTableEngineChain, specEngineYield, hav, hl, hs,
            mkTableRecs_isEmpty, Nat.pos_iff_ne_zero.mp hs]
      · simp [extractTablesLoop, specTableEngineChain, specEngineYield, hav, hl,
          mkTableRecs_isEmpty, Nat.pos_iff_ne_zero.mp hl]
    · by_cases ht : e = "tabula" ∧ env.tabula_available
      · rcases ht with ⟨he, hav⟩
        subst he
        rcases Nat.eq_zero_or_pos res.tabula_tables with h0 | h0
        · simp [extractTablesLoop, specTableEngineChain, specEngineYield, hav, h0,
            mkTableRecs_isEmpty, hc, ih]
        · simp [extractTablesLoop, specTableEngineChain, specEngineYield, hav, h0,
            mkTableRecs_isEmpty, hc, Nat.pos_iff_ne_zero.mp h0]
      · have hcam : ¬ (e = "camelot" ∧ env.camelot_available) := hc
        have htab : ¬ (e = "tabula" ∧ env.tabula_available) := ht
        by_cases hec : e = "camelot"
        · subst hec
          have hna : env.camelot_available = false := by
            by_contra h
            exact hcam ⟨rfl, by simpa using h⟩
          simp [extractTablesLoop, specTableEngineChain, specEngineYield, hna, ih]
        · by_cases het : e = "tabula"
          · subst het
            have hna : env.tabula_available = false := by
              by_contra h
              exact htab ⟨rfl, by simpa using h⟩
            simp [extractTablesLoop, specTableEngineChain, specEngineYield, hec,
              hna, ih]
          · simp [extractTablesLoop, specTableEngineChain, specEngineYield, hec, het,
              hcam, htab, ih]

theorem mkTableRecs_map_index (engine tables_dir : String) (page cnt startIdx : Nat) :
    (mkTableRecs engine tables_dir page cnt startIdx).map TableRec.index =
      List.range' startIdx cnt := by
  simp only [mkTableRecs, List.map_map]
  rw [List.range'_eq_map_range]
  rfl

/-- The per-page counter semantics: every table list produced by
`_extract_tables_page` carries indices 1, 2, …, k (restarting at 1 on each
page, since the counter is local to the call). -/
theorem extract_tables_page_indices (env : Env) (res : PageTableResults)
    (order : List String) (tables_dir : String) (page : Nat) :
    (extract_tables_page env res order tables_dir page).map TableRec.index =
      List.range' 1 (extract_tables_page env res order tables_dir page).length := by
  rw [extract_eq_specChain]
  induction order with
  | nil => rfl
  | cons e rest ih =>
    show (specTableEngineChain env res tables_dir page (e :: rest)).map _ = _
    rcases hy : specEngineYield env res e with _ | ⟨tag, k⟩
    · simpa [specTableEngineChain, hy] using ih
    · simp only [specTableEngineChain, hy]
      rw [mkTableRecs_map_index]
      congr 1
      simp [mkTableRecs]

/-! XML document model (`_build_xml_scaffold` / `_append_page`, lines 189-321)

An `Xml` value models an lxml element tree node; `cdata` models an
`etree.CDATA` text payload.  Serialising and re-parsing a well-formed tree is
faithful for CDATA content (the cleaned text contains no characters the XML
writer alters), so "re-parsing combined.xml" is modelled by reading the tree
structure back. -/

inductive Xml where
  | elem (tag : String) (attrs : List (String × String)) (children : List Xml)
  | cdata (s : String)

structure ImageRec where
  index : Nat
  path : String
  width : Nat
  height : Nat
  deriving DecidableEq, Inhabited

/-- One entry of `page.get_images(full=True)` plus whether the pixmap
extraction at lines 109-114 succeeds (`decodeOk = false` models the
`except: continue` path at line 121). -/
structure ImgSrc where
  width : Nat
  height : Nat
  decodeOk : Bool
  deriving DecidableEq, Inhabited

/-- `_extract_embedded_images` (lines 104-123): enumerate the page's images;
a failing image is skipped but still consumes its enumeration index. -/
def extract_embedded_images (srcs : List ImgSrc) (page_index : Nat)
    (images_dir : String) : List ImageRec :=
  srcs.enum.filterMap fun p =>
    if p.2.decodeOk then
      some { index := p.1 + 1
             path := images_dir ++ "/" ++ imageFileName page_index p.1
             width := p.2.width
             height := p.2.height }
    else none

/-- `_append_page` (lines 295-321): the `<page>` element appended to
`<content>` for one page. -/
def append_page_elem (page_index : Nat) (text : String) (images : List ImageRec)
    (tables : List TableRec) : Xml :=
  Xml.elem "page" [("index", natRepr (page_index + 1))]
    ([Xml.elem "text" [] [Xml.cdata (cleanedPageText text)]]
      ++ (if images.isEmpty then [] else
          [Xml.elem "images" [] (images.map fun im =>
            Xml.elem "image"
              [("index", natRepr im.index), ("path", im.path),
               ("width", natRepr im.width), ("height", natRepr im.height)] [])])
      ++ (if tables.isEmpty then [] else
          [Xml.elem "tables" [] (tables.map fun t =>
            Xml.elem "table_ref" [("engine", t.engine), ("path", t.path)] [])]))

/-! Re-parsing helpers: read a `<page>` element back. -/

def isElemTag (tag : String) : Xml → Bool
  | Xml.elem t _ _ => t == tag
  | _ => false

/-- The text payload of an element whose single child is a CDATA node. -/
def textPayload : List Xml → String
  | [Xml.cdata s] => s
  | _ => ""

/-- Text recovered for a page by a consumer of `combined.xml`: the CDATA
payload of the first `<text>` child. -/
def pageRecoveredText : Xml → String
  | Xml.elem _ _ cs =>
    (cs.filterMap fun c =>
      match c with
      | Xml.elem t _ items => if t = "text" then some (textPayload items) else none
      | _ => none).headD ""
  | _ => ""

/-- Number of `<image>` reference nodes inside the page's `<images>` block. -/
def pageImageRefCount : Xml → Nat
  | Xml.elem _ _ cs =>
    (cs.map fun c =>
      match c with
      | Xml.elem t _ items =>
        if t = "images" then (items.filter (isElemTag "image")).length else 0
      | _ => 0).sum
  | _ => 0

/-- Number of `<table_ref>` reference nodes inside the page's `<tables>` block. -/
def pageTableRefCount : Xml → Nat
  | Xml.elem _ _ cs =>
    (cs.map fun c =>
      match c with
      | Xml.elem t _ items =>
        if t = "tables" then (items.filter (isElemTag "table_ref")).length else 0
      | _ => 0).sum
  | _ => 0

/-! Page pipeline (`process_pdf`, lines 324-460) -/

/-- Source-side view of one PDF page, as provided by the external engines:
the native text layer, the text OCR would return for the rendered page, the
embedded images, and each table-engine attempt's yield. -/
structure PageSrc where
  native_text : String
  ocr_text : String
  images : List ImgSrc
  tables : PageTableResults
  deriving DecidableEq, Inhabited

/-- The input document as seen through `fitz.open`: whether the open succeeds
at all (line 370 raises to the caller otherwise), and the pages. -/
structure Doc where
  openOk : Bool
  pages : List PageSrc
  deriving Inhabited

structure RunParams where
  start_page : Int
  end_page : Int
  ocr_threshold : Int
  dpi : Nat
  ocr_lang : String
  ocr_psm : String
  ocr_oem : String
  table_order : List String
  auto_cleanup : Bool
  max_sessions : Nat
  max_age_hours : Rat
  deriving Inhabited

/-- Clamping of the page range (lines 373-376). -/
def clampEnd (end_page : Int) (total_pages : Nat) : Nat :=
  if end_page ≤ 0 ∨ end_page > (total_pages : Int) then total_pages else end_page.toNat

def clampStart (start_page : Int) : Nat :=
  if start_page < 1 then 1 else start_page.toNat

/-- The 0-based indices visited by `for idx in range(start_page - 1, end_page)`
(line 383), after clamping. -/
def pageIndices (start_page end_page : Int) (total_pages : Nat) : List Nat :=
  List.range' (clampStart start_page - 1)
    (clampEnd end_page total_pages - (clampStart start_page - 1))

/-- The OCR decision for one page (lines 386-393): returns the page's final
text together with the `did_ocr` flag. -/
def ocrStep (ocr_available : Bool) (ocr_threshold : Int) (native ocr_txt : String) :
    String × Bool :=
  if (trimLen native : Int) < ocr_threshold ∧ ocr_available = true then
    if trimLen ocr_txt > trimLen native then (ocr_txt, true) else (native, false)
  else (native, false)

structure PageRecord where
  index : Nat
  text : String
  did_ocr : Bool
  images : List ImageRec
  tables : List TableRec
  deriving DecidableEq, Inhabited

def sessionDirOf (outdir session_id : String) : String :=
  outdir ++ "/session_" ++ session_id

def tablesDirOf (outdir session_id : String) : String :=
  sessionDirOf outdir session_id ++ "/tables"

def imagesDirOf (outdir session_id : String) : String :=
  sessionDirOf outdir session_id ++ "/assets/images"

/-- One iteration of the page loop (lines 383-409) for 0-based page `idx`:
OCR decision, image extraction, table-engine chain (whose exceptions are
swallowed into its table counts), and the assembled `PageRecord`. -/
def mkPageRecord (env : Env) (doc : Doc) (params : RunParams)
    (outdir session_id : String) (idx : Nat) : PageRecord :=
  let src := doc.pages.getD idx default
  let step := ocrStep env.ocr_available params.ocr_threshold src.native_text src.ocr_text
  { index := idx + 1
    text := step.1
    did_ocr := step.2
    images := extract_embedded_images src.images idx (imagesDirOf outdir session_id)
    tables := extract_tables_page env src.tables params.table_order
      (tablesDirOf outdir session_id) (idx + 1) }

/-- The sequence of `PageRecord`s accumulated by the page loop. -/
def runPageRecords (env : Env) (doc : Doc) (params : RunParams)
    (outdir session_id : String) : List PageRecord :=
  (pageIndices params.start_page params.end_page doc.pages.length).map
    (mkPageRecord env doc params outdir session_id)

structure RunStats where
  pages : Nat
  ocr_pages : Nat
  images : Nat
  tables : Nat
  deriving DecidableEq, Inhabited

/-- The `stats` counters accumulated by `+=` in the loop (lines 380-409),
expressed as totals over the produced records. -/
def runStats (records : List PageRecord) : RunStats :=
  { pages := records.length
    ocr_pages := (records.filter (fun r => r.did_ocr)).length
    images := (records.map (fun r => r.images.length)).sum
    tables := (records.map (fun r => r.tables.length)).sum }

/-- The `<page>` children of `<content>` in `combined.xml`, in loop order
(line 405 appends one per iteration). -/
def combinedContentPages (records : List PageRecord) : List Xml :=
  records.map fun r => append_page_elem (r.index - 1) r.text r.images r.tables

/-! Retention manager (`_cleanup_old_sessions`, lines 204-280)

The file system is an explicit input: the entries of the output root, each
with its `st_mtime`, on-disk size (as `_get_directory_size_mb` would total it;
that helper catches its own exceptions and never raises), and failure flags
for the fallible primitives: `statFails` models `Path.stat` raising (which
aborts the body into the outer `except`, line 277), `rmtreeFails` models
`shutil.rmtree` raising (caught per-directory, line 271), `iterFails` models
`iterdir` raising.  Times are rationals (seconds); Python's float arithmetic
on these quantities is exact real arithmetic for the comparisons involved. -/

structure SessionDir where
  name : String
  isDir : Bool
  statFails : Bool
  mtime : Rat
  sizeBytes : Nat
  rmtreeFails : Bool
  deriving DecidableEq, Inhabited

structure OutputRootState where
  rootExists : Bool
  iterFails : Bool
  entries : List SessionDir
  deriving DecidableEq, Inhabited

structure CleanupStats where
  sessions_found : Nat
  sessions_removed : Nat
  sessions_kept : Nat
  space_freed_mb : Rat
  cleanup_reason : List String
  deriving DecidableEq, Inhabited

/-- The `cleanup_stats` dict initialiser (lines 219-225). -/
def initCleanupStats : CleanupStats :=
  { sessions_found := 0
    sessions_removed := 0
    sessions_kept := 0
    space_freed_mb := 0
    cleanup_reason := [] }

/-- Line 232-233: `d.is_dir() and d.name.startswith('session_')`. -/
def isSessionEntry (d : SessionDir) : Bool :=
  d.isDir && "session_".data.isPrefixOf d.name.data

/-- `_get_directory_size_mb` (lines 283-292): bytes / (1024 * 1024). -/
def sizeMB (d : SessionDir) : Rat :=
  (d.sizeBytes : Rat) / (1024 * 1024)

/-- Line 249: `(current_time - st_mtime) / 3600`. -/
def sessionAgeHours (now : Rat) (d : SessionDir) : Rat :=
  (now - d.mtime) / 3600

/-- The body of the removal loop (lines 261-273): a failing `rmtree` only
records an error reason; a successful one bumps the counters.  (The reason
strings abbreviate the formatted age / exception text of the source, which no
claim inspects beyond presence.) -/
def removeOneSession (acc : CleanupStats) (p : SessionDir × String) : CleanupStats :=
  if p.1.rmtreeFails then
    { acc with cleanup_reason := acc.cleanup_reason ++ [p.1.name ++ ":error_rmtree"] }
  else
    { acc with
        sessions_removed := acc.sessions_removed + 1
        space_freed_mb := acc.space_freed_mb + sizeMB p.1
        cleanup_reason := acc.cleanup_reason ++ [p.1.name ++ ":" ++ p.2] }

/-- `_cleanup_old_sessions` (lines 204-280).  Besides the statistics dict the
model also returns the list of directories actually deleted (the `rmtree`
effects), in deletion order, so that claims can talk about what was removed. -/
def cleanup_old_sessions (st : OutputRootState) (now : Rat) (max_sessions : Nat)
    (max_age_hours : Rat) : CleanupStats × List SessionDir :=
  if st.rootExists = false then (initCleanupStats, [])
  else if st.iterFails then
    ({ initCleanupStats with cleanup_reason := ["cleanup_error:iterdir"] }, [])
  else
    let session_dirs := st.entries.filter isSessionEntry
    let s1 := { initCleanupStats with sessions_found := session_dirs.length }
    if session_dirs.length ≤ 1 then
      -- line 237: keep at least the current session
      ({ s1 with sessions_kept := session_dirs.length }, [])
    else if session_dirs.any (fun d => d.statFails) then
      -- a stat raising during the sort key / age computation jumps to the
      -- outer handler (line 277): sessions_kept is never assigned
      ({ s1 with cleanup_reason := s1.cleanup_reason ++ ["cleanup_error:stat"] }, [])
    else
      -- line 242: stable sort by st_mtime, newest first
      let sorted := List.insertionSort (fun a b => b.mtime ≤ a.mtime) session_dirs
      -- strategy 1 (lines 248-251): age strictly above the threshold
      let ageRemove := sorted.filter (fun d => decide (sessionAgeHours now d > max_age_hours))
      let ageTagged := ageRemove.map (fun d => (d, "aged"))
      -- strategy 2 (lines 254-258): rank beyond the newest `max_sessions`,
      -- skipping directories already listed by strategy 1
      let excess := if max_sessions < session_dirs.length then
          (sorted.drop max_sessions).filter (fun d => decide (d ∉ ageRemove))
        else []
      let excessTagged := excess.map (fun d => (d, "excess_count"))
      let toRemove := ageTagged ++ excessTagged
      let final := toRemove.foldl removeOneSession s1
      ({ final with sessions_kept := s1.sessions_found - final.sessions_removed },
        (toRemove.map Prod.fst).filter (fun d => !d.rmtreeFails))

/-! Run assembly, manifest and effects (`process_pdf`, lines 324-460) -/

inductive Effect where
  | rmtreeDir (path : String)
  | mkdirDir (path : String)
  | openInput (path : String)
  | writeFileEff (path : String)
  deriving DecidableEq

def Effect.isWrite : Effect → Bool
  | Effect.writeFileEff _ => true
  | _ => false

/-- The `params` sub-dict of the manifest (lines 434-443); `start_page` and
`end_page` are recorded after clamping since the locals are reassigned. -/
structure ManifestParams where
  start_page : Nat
  end_page : Nat
  ocr_threshold : Int
  dpi : Nat
  ocr_lang : String
  ocr_psm : String
  ocr_oem : String
  table_order : List String
  deriving DecidableEq, Inhabited

/-- The manifest dict as built at lines 417-444 (before any cleanup key). -/
structure ManifestCore where
  input : String
  output_dir : String
  session_dir : String
  session_id : String
  xml : String
  tables_dir : String
  images_dir : String
  pages_processed : Nat
  pages_ocr : Nat
  images_extracted : Nat
  tables_extracted : Nat
  started : String
  finished : String
  ocr_available : Bool
  camelot_available : Bool
  tabula_available : Bool
  params : ManifestParams
  deriving DecidableEq, Inhabited

/-- What a successful run produces.  `persistedFileContents` is the JSON
object written to `manifest.json` at line 446: its second component is `none`
because the dict has no `cleanup_stats` key at write time.  In
`returnedManifest` the second component is the `cleanup_stats` value added at
line 454 to the returned dict: `some stats` when auto-cleanup ran, `none`
standing for the empty dict `{}` otherwise. -/
structure RunOutcome where
  records : List PageRecord
  stats : RunStats
  contentPages : List Xml
  persistedManifestPath : String
  persistedFileContents : ManifestCore × Option CleanupStats
  returnedManifest : ManifestCore × Option CleanupStats
  removedSessions : List SessionDir

/-- `process_pdf` (lines 324-460).  External inputs made explicit: the opened
document view `doc` (with `openOk = false` when `fitz.open` raises, line 370),
the md5-derived `session_id` (line 351), whether a directory of that name
already exists (line 360), the current wall-clock `now` / `now_iso`, and the
output-root state seen by the retention manager.  The first component is the
trace of file-system effects in program order (directory juggling at lines
358-368 happens before the open; page/table/image and manifest writes after). -/
def process_pdf (env : Env) (doc : Doc) (params : RunParams)
    (input_pdf outdir session_id now_iso : String) (sessionDirPreexists : Bool)
    (root_state : OutputRootState) (now : Rat) :
    List Effect × Except String RunOutcome :=
  let session_dir := sessionDirOf outdir session_id
  let preEffects :=
    (if sessionDirPreexists then [Effect.rmtreeDir session_dir] else [])
      ++ [Effect.mkdirDir session_dir, Effect.mkdirDir (tablesDirOf outdir session_id),
          Effect.mkdirDir (imagesDirOf outdir session_id), Effect.mkdirDir outdir]
  if doc.openOk = false then
    (preEffects ++ [Effect.openInput input_pdf], Except.error "fitz.open failed")
  else
    let records := runPageRecords env doc params outdir session_id
    let stats := runStats records
    let core : ManifestCore :=
      { input := input_pdf
        output_dir := outdir
        session_dir := session_dir
        session_id := session_id
        xml := session_dir ++ "/combined.xml"
        tables_dir := tablesDirOf outdir session_id
        images_dir := imagesDirOf outdir session_id
        pages_processed := stats.pages
        pages_ocr := stats.ocr_pages
        images_extracted := stats.images
        tables_extracted := stats.tables
        started := now_iso
        finished := now_iso
        ocr_available := env.ocr_available
        camelot_available := env.camelot_available
        tabula_available := env.tabula_available
        params :=
          { start_page := clampStart params.start_page
            end_page := clampEnd params.end_page doc.pages.length
            ocr_threshold := params.ocr_threshold
            dpi := params.dpi
            ocr_lang := params.ocr_lang
            ocr_psm := params.ocr_psm
            ocr_oem := params.ocr_oem
            table_order := params.table_order } }
    let cleanupRes :=
      if params.auto_cleanup then
        cleanup_old_sessions root_state now params.max_sessions params.max_age_hours
      else (initCleanupStats, [])
    let pageWrites := records.foldr
      (fun r acc =>
        r.images.map (fun im => Effect.writeFileEff im.path)
          ++ r.tables.map (fun t => Effect.writeFileEff t.path) ++ acc) []
    (preEffects ++ [Effect.openInput input_pdf] ++ pageWrites
        ++ [Effect.writeFileEff (session_dir ++ "/combined.xml"),
            Effect.writeFileEff (outdir ++ "/manifest.json")],
      Except.ok
        { records := records
          stats := stats
          contentPages := combinedContentPages records
          persistedManifestPath := outdir ++ "/manifest.json"
          persistedFileContents := (core, none)
          returnedManifest := (core, if params.auto_cleanup then some cleanupRes.1 else none)
          removedSessions := cleanupRes.2 })

/-- Models `_safe_write_text` (lines 70-73): create parent directories, then
open the target with mode "w" — truncating any existing file — and write.
The file system is a map from paths to contents; a write makes the target
hold exactly the new contents and leaves every other path alone. -/
def safe_write_text (fs : String → Option String) (path contents : String) :
    String → Option String :=
  fun q => if q = path then some contents else fs q

/-! Helper lemmas for the claim theorems -/

theorem pyStrip_data_subset {c : Char} {s : String} (h : c ∈ (pyStrip s).data) :
    c ∈ s.data := by
  have h1 : c ∈ ((s.data.dropWhile isPySpace).reverse.dropWhile isPySpace).reverse := h
  rw [List.mem_reverse] at h1
  have h2 := (List.dropWhile_sublist _).subset h1
  rw [List.mem_reverse] at h2
  exact (List.dropWhile_sublist _).subset h2

theorem recoveredText_append_page (idx : Nat) (text : String) (imgs : List ImageRec)
    (tbls : List TableRec) :
    pageRecoveredText (append_page_elem idx text imgs tbls) = cleanedPageText text := by
  by_cases hi : imgs.isEmpty <;> by_cases ht : tbls.isEmpty <;>
    simp [append_page_elem, pageRecoveredText, textPayload, hi, ht]

theorem length_filter_image_refs (l : List ImageRec) :
    ((l.map fun im => Xml.elem "image"
        [("index", natRepr im.index), ("path", im.path),
         ("width", natRepr im.width), ("height", natRepr im.height)] []).filter
      (isElemTag "image")).length = l.length := by
  induction l with
  | nil => rfl
  | cons a l ih => simpa [isElemTag] using ih

theorem length_filter_table_refs (l : List TableRec) :
    ((l.map fun t => Xml.elem "table_ref"
        [("engine", t.engine), ("path", t.path)] []).filter
      (isElemTag "table_ref")).length = l.length := by
  induction l with
  | nil => rfl
  | cons a l ih => simpa [isElemTag] using ih

theorem imageRefCount_append_page (idx : Nat) (text : String) (imgs : List ImageRec)
    (tbls : List TableRec) :
    pageImageRefCount (append_page_elem idx text imgs tbls) = imgs.length := by
  by_cases hi : imgs.isEmpty
  · have h0 : imgs = [] := List.isEmpty_iff.mp hi
    subst h0
    by_cases ht : tbls.isEmpty <;> simp [append_page_elem, pageImageRefCount, ht]
  · by_cases ht : tbls.isEmpty <;>
      simp [append_page_elem, pageImageRefCount, hi, ht, length_filter_image_refs]

theorem tableRefCount_append_page (idx : Nat) (text : String) (imgs : List ImageRec)
    (tbls : List TableRec) :
    pageTableRefCount (append_page_elem idx text imgs tbls) = tbls.length := by
  by_cases ht : tbls.isEmpty
  · have h0 : tbls = [] := List.isEmpty_iff.mp ht
    subst h0
    by_cases hi : imgs.isEmpty <;> simp [append_page_elem, pageTableRefCount, hi]
  · by_cases hi : imgs.isEmpty <;>
      simp [append_page_elem, pageTableRefCount, hi, ht, length_filter_table_refs]

theorem ocrStep_spec (avail : Bool) (th : Int) (nat oc : String) :
    ((ocrStep avail th nat oc).2 = true
      ↔ ((trimLen nat : Int) < th ∧ avail = true ∧ trimLen nat < trimLen oc))
    ∧ (ocrStep avail th nat oc).1
        = (if (trimLen nat : Int) < th ∧ avail = true ∧ trimLen nat < trimLen oc
           then oc else nat) := by
  by_cases hC : (trimLen nat : Int) < th ∧ avail = true ∧ trimLen nat < trimLen oc
  · rw [if_pos hC]
    have hstep : ocrStep avail th nat oc = (oc, true) := by
      unfold ocrStep
      rw [if_pos ⟨hC.1, hC.2.1⟩, if_pos hC.2.2]
    rw [hstep]
    exact ⟨by simp [hC], rfl⟩
  · rw [if_neg hC]
    have hstep : ocrStep avail th nat oc = (nat, false) := by
      unfold ocrStep
      by_cases h1 : (trimLen nat : Int) < th ∧ avail = true
      · rw [if_pos h1, if_neg (fun h3 => hC ⟨h1.1, h1.2, h3⟩)]
      · rw [if_neg h1]
    rw [hstep]
    exact ⟨⟨fun hfalse => absurd hfalse (by simp), fun hc => absurd hc hC⟩, rfl⟩

/-- The record the run produced at position `i` of its page sequence. -/
def runRecordAt (env : Env) (doc : Doc) (params : RunParams)
    (outdir session_id : String) (i : Nat) : PageRecord :=
  (runPageRecords env doc params outdir session_id).getD i default

/-- The source page a `PageRecord` was extracted from (its 1-based index
points into the document's page list). -/
def srcPageOf (doc : Doc) (r : PageRecord) : PageSrc :=
  doc.pages.getD (r.index - 1) default

theorem runRecordAt_eq (env : Env) (doc : Doc) (params : RunParams)
    (outdir session_id : String) (i : Nat)
    (h : i < (runPageRecords env doc params outdir session_id).length) :
    runRecordAt env doc params outdir session_id i
      = mkPageRecord env doc params outdir session_id
          ((pageIndices params.start_page params.end_page doc.pages.length).getD i 0) := by
  have hlen : i < (pageIndices params.start_page params.end_page doc.pages.length).length := by
    simpa [runPageRecords] using h
  unfold runRecordAt runPageRecords
  rw [List.getD_eq_getElem _ _ (by simpa [runPageRecords] using h),
    List.getD_eq_getElem _ _ hlen]
  simp

theorem clampStart_pos (start_page : Int) : 1 ≤ clampStart start_page := by
  unfold clampStart
  split_ifs with h
  · exact le_refl 1
  · omega

/-! Claim theorems -/

/-- C9: for every input string, the page text serialized into `combined.xml`
contains no literal NUL character and no raw carriage return, even when the
input text contains either. -/
theorem serialized_text_no_nul_no_cr (s : String) :
    Char.ofNat 0 ∉ (cleanedPageText s).data ∧ '\r' ∉ (cleanedPageText s).data := by
  constructor <;> intro hmem
  · have h' : Char.ofNat 0 ∈ (pyStrip (removeCR s)).data.filter
        (fun c => !(isStrippedCtrl c)) := hmem
    have := (List.mem_filter.mp h').2
    exact absurd this (by decide)
  · have h' : '\r' ∈ (pyStrip (removeCR s)).data.filter
        (fun c => !(isStrippedCtrl c)) := hmem
    have h2 := pyStrip_data_subset ((List.mem_filter.mp h').1)
    have h3 : '\r' ∈ s.data.filter (fun c => c != '\r') := h2
    have := (List.mem_filter.mp h3).2
    exact absurd this (by decide)

/-- C2 counterexample: the claim promises that re-parsing recovers the page
text with leading/trailing whitespace preserved (only control-character
stripping and CR normalization applied).  For the input " a" the code stores
"a" — line 305 also calls `.strip()` — while the claimed cleaning alone would
keep " a". -/
theorem roundtrip_preserves_whitespace_ce :
    pageRecoveredText (append_page_elem 0 " a" [] []) ≠ clean_xml_text (removeCR " a") := by
  decide

/-- C2 (amended): re-parsing a produced page recovers, for every page, the
page text modulo the documented control-character stripping, carriage-return
removal AND leading/trailing whitespace trimming (the code applies
`.strip()`), and the recovered per-page image-reference and table-reference
counts equal the run's in-memory counters. -/
theorem roundtrip_text_and_counts (idx : Nat) (text : String) (imgs : List ImageRec)
    (tbls : List TableRec) (env : Env) (doc : Doc) (params : RunParams)
    (outdir session_id : String) :
    (pageRecoveredText (append_page_elem idx text imgs tbls) = cleanedPageText text
      ∧ pageImageRefCount (append_page_elem idx text imgs tbls) = imgs.length
      ∧ pageTableRefCount (append_page_elem idx text imgs tbls) = tbls.length)
    ∧ ((combinedContentPages (runPageRecords env doc params outdir session_id)).map
          pageImageRefCount).sum
        = (runStats (runPageRecords env doc params outdir session_id)).images
    ∧ ((combinedContentPages (runPageRecords env doc params outdir session_id)).map
          pageTableRefCount).sum
        = (runStats (runPageRecords env doc params outdir session_id)).tables := by
  refine ⟨⟨recoveredText_append_page idx text imgs tbls,
    imageRefCount_append_page idx text imgs tbls,
    tableRefCount_append_page idx text imgs tbls⟩, ?_, ?_⟩
  · simp only [combinedContentPages, runStats, List.map_map]
    congr 1
    apply List.map_congr_left
    intro r _
    exact imageRefCount_append_page (r.index - 1) r.text r.images r.tables
  · simp only [combinedContentPages, runStats, List.map_map]
    congr 1
    apply List.map_congr_left
    intro r _
    exact tableRefCount_append_page (r.index - 1) r.text r.images r.tables

/-- C7: for every page, table engines are tried strictly in the configured
order, an engine unavailable at the environment level is skipped without being
an error, the first engine yielding one or more tables wins (later engines are
not tried), and camelot is tried with lattice-style detection and retried with
stream-style detection before the next engine: `_extract_tables_page` equals
the chain written directly from the spec's words. -/
theorem table_engine_chain_refines_spec (env : Env) (res : PageTableResults)
    (order : List String) (tables_dir : String) (page : Nat) :
    extract_tables_page env res order tables_dir page
      = specTableEngineChain env res tables_dir page order :=
  extract_eq_specChain env res tables_dir page order

/-- C1 counterexample: `global_table_index` is a local of
`_extract_tables_page`, re-initialised to 1 on every page.  In a run where
page 1 contributes two tables and page 3 one table, the run's table indices in
document order are [1, 2, 1]: the page-3 table gets index 1, not 3, and the
sequence is not strictly increasing. -/
theorem global_table_index_resets_ce :
    ((runPageRecords ⟨false, true, false⟩
        { openOk := true
          pages :=
            [{ native_text := "x", ocr_text := "", images := [], tables := ⟨2, 0, 0⟩ },
             { native_text := "x", ocr_text := "", images := [], tables := ⟨0, 0, 0⟩ },
             { native_text := "x", ocr_text := "", images := [], tables := ⟨1, 0, 0⟩ }] }
        { start_page := 1, end_page := 0, ocr_threshold := 40, dpi := 300,
          ocr_lang := "eng", ocr_psm := "3", ocr_oem := "3",
          table_order := ["camelot", "tabula"], auto_cleanup := false,
          max_sessions := 5, max_age_hours := 24 }
        "out" "sid").foldr (fun r acc => r.tables.map TableRec.index ++ acc) [])
      = [1, 2, 1]
    ∧ ¬ List.Pairwise (fun a b : Nat => a < b) [1, 2, 1] := by
  constructor
  · decide
  · intro h
    have h21 := (List.pairwise_cons.mp (List.pairwise_cons.mp h).2).1 1 (by simp)
    omega

/-- C1 (amended): the table index counter is scoped to one page's extraction
call: it starts at 1 on every page and increases consecutively across engine
attempts within the page, so each page's tables carry indices 1..k; output
filenames nevertheless remain collision-free across the run because the page
number is part of the filename (for page numbers below 10^6 and indices below
10^3, the widths of the padded fields, distinct (page, index) pairs give
distinct filenames). -/
theorem table_index_per_page_and_filenames (env : Env) (res : PageTableResults)
    (order : List String) (tables_dir : String) (page p p' i i' : Nat)
    (hp : p < 10 ^ 6) (hp' : p' < 10 ^ 6) (hi : i < 10 ^ 3) (hi' : i' < 10 ^ 3)
    (hne : (p, i) ≠ (p', i')) :
    ((extract_tables_page env res order tables_dir page).map TableRec.index
        = List.range' 1 (extract_tables_page env res order tables_dir page).length)
    ∧ tableFileName p i ≠ tableFileName p' i' := by
  refine ⟨extract_tables_page_indices env res order tables_dir page, fun hcontra => ?_⟩
  obtain ⟨h1, h2⟩ := tableFileName_injOn p p' i i' hp hp' hi hi' hcontra
  subst h1
  subst h2
  exact hne rfl

/-- Witness for C1 (amended): concrete instantiation at a camelot page with
two tables and the filename pair (page 1, idx 1) vs (page 3, idx 1). -/
theorem table_index_per_page_and_filenames_witness :
    ((extract_tables_page ⟨false, true, false⟩ ⟨2, 0, 0⟩ ["camelot", "tabula"] "t" 1).map
        TableRec.index
      = List.range' 1
          (extract_tables_page ⟨false, true, false⟩ ⟨2, 0, 0⟩ ["camelot", "tabula"] "t" 1).length)
    ∧ tableFileName 1 1 ≠ tableFileName 3 1 :=
  table_index_per_page_and_filenames ⟨false, true, false⟩ ⟨2, 0, 0⟩ ["camelot", "tabula"]
    "t" 1 1 3 1 1 (by decide) (by decide) (by decide) (by decide) (by decide)

/-- C5: for every page of the run, OCR text replaces the native text if and
only if the native trimmed length is strictly below the OCR threshold, an OCR
engine is available, and the OCR result's trimmed length is strictly greater
than the native one; the `did_ocr` flag is set exactly when replacement
happened (so equal trimmed lengths never replace). -/
theorem ocr_replacement_policy (env : Env) (doc : Doc) (params : RunParams)
    (outdir session_id : String) (i : Nat)
    (h : i < (runPageRecords env doc params outdir session_id).length) :
    ((runRecordAt env doc params outdir session_id i).did_ocr = true
      ↔ ((trimLen (srcPageOf doc (runRecordAt env doc params outdir session_id i)).native_text : Int)
            < params.ocr_threshold
          ∧ env.ocr_available = true
          ∧ trimLen (srcPageOf doc (runRecordAt env doc params outdir session_id i)).native_text
              < trimLen (srcPageOf doc (runRecordAt env doc params outdir session_id i)).ocr_text))
    ∧ (runRecordAt env doc params outdir session_id i).text
        = (if (trimLen (srcPageOf doc (runRecordAt env doc params outdir session_id i)).native_text : Int)
              < params.ocr_threshold
            ∧ env.ocr_available = true
            ∧ trimLen (srcPageOf doc (runRecordAt env doc params outdir session_id i)).native_text
                < trimLen (srcPageOf doc (runRecordAt env doc params outdir session_id i)).ocr_text
          then (srcPageOf doc (runRecordAt env doc params outdir session_id i)).ocr_text
          else (srcPageOf doc (runRecordAt env doc params outdir session_id i)).native_text) := by
  rw [runRecordAt_eq env doc params outdir session_id i h]
  have hsrc : srcPageOf doc
      (mkPageRecord env doc params outdir session_id
        ((pageIndices params.start_page params.end_page doc.pages.length).getD i 0))
      = doc.pages.getD
          ((pageIndices params.start_page params.end_page doc.pages.length).getD i 0)
          default := by
    simp [srcPageOf, mkPageRecord]
  rw [hsrc]
  exact ocrStep_spec env.ocr_available params.ocr_threshold _ _

/-- Witness for C5: a one-page document whose empty native text is below the
threshold and whose OCR text is strictly longer — the record shows `did_ocr`
and the OCR text. -/
theorem ocr_replacement_policy_witness :
    ((runRecordAt ⟨true, false, false⟩
        { openOk := true
          pages := [{ native_text := "", ocr_text := "hello", images := [], tables := ⟨0, 0, 0⟩ }] }
        { start_page := 1, end_page := 0, ocr_threshold := 40, dpi := 300,
          ocr_lang := "eng", ocr_psm := "3", ocr_oem := "3",
          table_order := ["camelot", "tabula"], auto_cleanup := false,
          max_sessions := 5, max_age_hours := 24 }
        "o" "s" 0).did_ocr = true
      ↔ ((trimLen (srcPageOf
            { openOk := true
              pages := [{ native_text := "", ocr_text := "hello", images := [], tables := ⟨0, 0, 0⟩ }] }
            (runRecordAt ⟨true, false, false⟩
              { openOk := true
                pages := [{ native_text := "", ocr_text := "hello", images := [], tables := ⟨0, 0, 0⟩ }] }
              { start_page := 1, end_page := 0, ocr_threshold := 40, dpi := 300,
                ocr_lang := "eng", ocr_psm := "3", ocr_oem := "3",
                table_order := ["camelot", "tabula"], auto_cleanup := false,
                max_sessions := 5, max_age_hours := 24 }
              "o" "s" 0)).native_text : Int) < 40
          ∧ true = true
          ∧ trimLen (srcPageOf
              { openOk := true
                pages := [{ native_text := "", ocr_text := "hello", images := [], tables := ⟨0, 0, 0⟩ }] }
              (runRecordAt ⟨true, false, false⟩
                { openOk := true
                  pages := [{ native_text := "", ocr_text := "hello", images := [], tables := ⟨0, 0, 0⟩ }] }
                { start_page := 1, end_page := 0, ocr_threshold := 40, dpi := 300,
                  ocr_lang := "eng", ocr_psm := "3", ocr_oem := "3",
                  table_order := ["camelot", "tabula"], auto_cleanup := false,
                  max_sessions := 5, max_age_hours := 24 }
                "o" "s" 0)).native_text
              < trimLen (srcPageOf
                { openOk := true
                  pages := [{ native_text := "", ocr_text := "hello", images := [], tables := ⟨0, 0, 0⟩ }] }
                (runRecordAt ⟨true, false, false⟩
                  { openOk := true
                    pages := [{ native_text := "", ocr_text := "hello", images := [], tables := ⟨0, 0, 0⟩ }] }
                  { start_page := 1, end_page := 0, ocr_threshold := 40, dpi := 300,
                    ocr_lang := "eng", ocr_psm := "3", ocr_oem := "3",
                    table_order := ["camelot", "tabula"], auto_cleanup := false,
                    max_sessions := 5, max_age_hours := 24 }
                  "o" "s" 0)).ocr_text)) := by
  have := (ocr_replacement_policy ⟨true, false, false⟩
    { openOk := true
      pages := [{ native_text := "", ocr_text := "hello", images := [], tables := ⟨0, 0, 0⟩ }] }
    { start_page := 1, end_page := 0, ocr_threshold := 40, dpi := 300,
      ocr_lang := "eng", ocr_psm := "3", ocr_oem := "3",
      table_order := ["camelot", "tabula"], auto_cleanup := false,
      max_sessions := 5, max_age_hours := 24 }
    "o" "s" 0 (by decide)).1
  exact this

/-- C6: after clamping (`end_page ≤ 0` or beyond the document becomes the page
count, `start_page < 1` becomes 1), the run produces records whose 1-based
indices are exactly start..end in strictly increasing order with no gaps or
duplicates (hence exactly end - start + 1 of them when the range is
non-empty), and an empty range after clamping yields zero pages, not an
error. -/
theorem page_range_clamped (env : Env) (doc : Doc) (params : RunParams)
    (outdir session_id : String) :
    ((runPageRecords env doc params outdir session_id).map PageRecord.index
        = List.range' (clampStart params.start_page)
            (clampEnd params.end_page doc.pages.length + 1 - clampStart params.start_page))
    ∧ (clampStart params.start_page ≤ clampEnd params.end_page doc.pages.length →
        (runPageRecords env doc params outdir session_id).length
          = clampEnd params.end_page doc.pages.length - clampStart params.start_page + 1)
    ∧ (clampEnd params.end_page doc.pages.length < clampStart params.start_page →
        runPageRecords env doc params outdir session_id = []) := by
  have hs := clampStart_pos params.start_page
  refine ⟨?_, ?_, ?_⟩
  · rw [runPageRecords, List.map_map]
    have hcomp : (PageRecord.index ∘ mkPageRecord env doc params outdir session_id)
        = fun idx => 1 + idx := funext fun x => Nat.add_comm x 1
    rw [hcomp]
    unfold pageIndices
    rw [List.map_add_range']
    congr 1 <;> omega
  · intro hle
    simp only [runPageRecords, List.length_map, pageIndices, List.length_range']
    omega
  · intro hlt
    have hz : clampEnd params.end_page doc.pages.length
        - (clampStart params.start_page - 1) = 0 := by omega
    simp [runPageRecords, pageIndices, hz]

/-- Witness for C6: a two-page document with `end_page = 0` (till last page)
yields exactly two records. -/
theorem page_range_clamped_witness :
    (runPageRecords ⟨false, false, false⟩
        { openOk := true
          pages := [{ native_text := "a", ocr_text := "", images := [], tables := ⟨0, 0, 0⟩ },
            { native_text := "b", ocr_text := "", images := [], tables := ⟨0, 0, 0⟩ }] }
        { start_page := 1, end_page := 0, ocr_threshold := 40, dpi := 300,
          ocr_lang := "eng", ocr_psm := "3", ocr_oem := "3",
          table_order := ["camelot", "tabula"], auto_cleanup := false,
          max_sessions := 5, max_age_hours := 24 }
        "o" "s").length = 2 :=
  (page_range_clamped ⟨false, false, false⟩
    { openOk := true
      pages := [{ native_text := "a", ocr_text := "", images := [], tables := ⟨0, 0, 0⟩ },
        { native_text := "b", ocr_text := "", images := [], tables := ⟨0, 0, 0⟩ }] }
    { start_page := 1, end_page := 0, ocr_threshold := 40, dpi := 300,
      ocr_lang := "eng", ocr_psm := "3", ocr_oem := "3",
      table_order := ["camelot", "tabula"], auto_cleanup := false,
      max_sessions := 5, max_age_hours := 24 }
    "o" "s").2.1 (by decide)

/-- C4 counterexample: with an unreadable input (`fitz.open` raises), the run
does surface the error, but the session directory tree has already been
created under the output root — so output *is* written (directories) before
the abort, contradicting the claim as stated. -/
theorem abort_after_session_dirs_ce :
    (process_pdf ⟨false, false, false⟩ { openOk := false, pages := [] }
        { start_page := 1, end_page := 0, ocr_threshold := 40, dpi := 300,
          ocr_lang := "eng", ocr_psm := "3", ocr_oem := "3",
          table_order := ["camelot", "tabula"], auto_cleanup := false,
          max_sessions := 5, max_age_hours := 24 }
        "in.pdf" "out" "abc" "t" false
        { rootExists := false, iterFails := false, entries := [] } 0).2
      = Except.error "fitz.open failed"
    ∧ Effect.mkdirDir (sessionDirOf "out" "abc")
        ∈ (process_pdf ⟨false, false, false⟩ { openOk := false, pages := [] }
            { start_page := 1, end_page := 0, ocr_threshold := 40, dpi := 300,
              ocr_lang := "eng", ocr_psm := "3", ocr_oem := "3",
              table_order := ["camelot", "tabula"], auto_cleanup := false,
              max_sessions := 5, max_age_hours := 24 }
            "in.pdf" "out" "abc" "t" false
            { rootExists := false, iterFails := false, entries := [] } 0).1 := by
  exact ⟨rfl, by decide⟩

/-- C4 (amended): if the input is missing or unreadable by the rendering
engine, the run aborts with the error surfaced to the caller before any output
*file* is written under the output root — but only after the (empty) session
directory tree and the output root itself have been created. -/
theorem open_failure_aborts_before_file_writes (env : Env) (doc : Doc)
    (params : RunParams) (input_pdf outdir session_id now_iso : String) (pre : Bool)
    (root_state : OutputRootState) (now : Rat)
    (h : doc.openOk = false) :
    (process_pdf env doc params input_pdf outdir session_id now_iso pre root_state now).2
        = Except.error "fitz.open failed"
    ∧ ((process_pdf env doc params input_pdf outdir session_id now_iso pre root_state now).1.all
        (fun e => !e.isWrite)) = true
    ∧ Effect.mkdirDir (sessionDirOf outdir session_id)
        ∈ (process_pdf env doc params input_pdf outdir session_id now_iso pre root_state now).1 := by
  simp only [process_pdf]
  rw [if_pos h]
  refine ⟨rfl, ?_, ?_⟩
  · cases pre <;> simp [Effect.isWrite]
  · cases pre <;> simp

/-- Witness for C4 (amended): a concrete failing open. -/
theorem open_failure_aborts_before_file_writes_witness :
    (process_pdf ⟨false, false, false⟩ { openOk := false, pages := [] }
        { start_page := 1, end_page := 0, ocr_threshold := 40, dpi := 300,
          ocr_lang := "eng", ocr_psm := "3", ocr_oem := "3",
          table_order := ["camelot", "tabula"], auto_cleanup := false,
          max_sessions := 5, max_age_hours := 24 }
        "a.pdf" "o" "s" "t" true
        { rootExists := false, iterFails := false, entries := [] } 0).2
      = Except.error "fitz.open failed" :=
  (open_failure_aborts_before_file_writes ⟨false, false, false⟩
    { openOk := false, pages := [] }
    { start_page := 1, end_page := 0, ocr_threshold := 40, dpi := 300,
      ocr_lang := "eng", ocr_psm := "3", ocr_oem := "3",
      table_order := ["camelot", "tabula"], auto_cleanup := false,
      max_sessions := 5, max_age_hours := 24 }
    "a.pdf" "o" "s" "t" true
    { rootExists := false, iterFails := false, entries := [] } 0 rfl).1

/-- C3 counterexample: in a run where retention ran and removed one session,
the manifest persisted to disk contains no `cleanup_stats` key (the file is
written at line 446, before line 454 adds the key to the in-memory dict), so
the persisted manifest does not contain the RetentionReport. -/
theorem persisted_manifest_lacks_retention_ce :
    ((process_pdf ⟨false, false, false⟩ { openOk := true, pages := [] }
        { start_page := 1, end_page := 0, ocr_threshold := 40, dpi := 300,
          ocr_lang := "eng", ocr_psm := "3", ocr_oem := "3",
          table_order := ["camelot", "tabula"], auto_cleanup := true,
          max_sessions := 5, max_age_hours := 24 }
        "in.pdf" "out" "abc" "t" false
        { rootExists := false, iterFails := false, entries := [] } 0).2.toOption.map
      (fun o => (o.persistedFileContents.2.isSome, o.returnedManifest.2.isSome)))
      = some (false, true) := by
  decide

/-- C3 (amended): the manifest is persisted as `manifest.json` into the
logical output root (not under the session subdirectory), overwriting any
previous manifest at that path, and it carries the complete run summary
(counts, availability flags, parameters); however, the RetentionReport is
never part of the persisted file — it is only added to the in-memory manifest
returned to the caller, exactly when retention ran. -/
theorem manifest_persisted_at_root (env : Env) (doc : Doc) (params : RunParams)
    (input_pdf outdir session_id now_iso : String) (pre : Bool)
    (root_state : OutputRootState) (now : Rat)
    (fs : String → Option String) (mcontents : String)
    (h : doc.openOk = true) :
    ((process_pdf env doc params input_pdf outdir session_id now_iso pre root_state now).2.toOption.map
        (fun o => o.persistedManifestPath) = some (outdir ++ "/manifest.json"))
    ∧ ((process_pdf env doc params input_pdf outdir session_id now_iso pre root_state now).2.toOption.map
        (fun o => o.persistedFileContents.2) = some none)
    ∧ ((process_pdf env doc params input_pdf outdir session_id now_iso pre root_state now).2.toOption.map
        (fun o => o.persistedFileContents.1)
      = (process_pdf env doc params input_pdf outdir session_id now_iso pre root_state now).2.toOption.map
        (fun o => o.returnedManifest.1))
    ∧ ((process_pdf env doc params input_pdf outdir session_id now_iso pre root_state now).2.toOption.map
        (fun o => o.returnedManifest.2)
      = some (if params.auto_cleanup then
          some (cleanup_old_sessions root_state now params.max_sessions params.max_age_hours).1
        else none))
    ∧ ((process_pdf env doc params input_pdf outdir session_id now_iso pre root_state now).2.toOption.map
        (fun o => (o.persistedFileContents.1.pages_processed,
          o.persistedFileContents.1.pages_ocr,
          o.persistedFileContents.1.images_extracted,
          o.persistedFileContents.1.tables_extracted,
          o.persistedFileContents.1.ocr_available,
          o.persistedFileContents.1.camelot_available,
          o.persistedFileContents.1.tabula_available))
      = some ((runStats (runPageRecords env doc params outdir session_id)).pages,
          (runStats (runPageRecords env doc params outdir session_id)).ocr_pages,
          (runStats (runPageRecords env doc params outdir session_id)).images,
          (runStats (runPageRecords env doc params outdir session_id)).tables,
          env.ocr_available, env.camelot_available, env.tabula_available))
    ∧ ¬ ((sessionDirOf outdir session_id).data <+: (outdir ++ "/manifest.json").data)
    ∧ safe_write_text fs (outdir ++ "/manifest.json") mcontents (outdir ++ "/manifest.json")
        = some mcontents := by
  have hne : ¬ (doc.openOk = false) := by simp [h]
  simp only [process_pdf]
  rw [if_neg hne]
  refine ⟨rfl, rfl, rfl, ?_, rfl, ?_, ?_⟩
  · cases hauto : params.auto_cleanup <;> rfl
  · intro hpre
    have hpre' : ("/session_".data ++ session_id.data) <+: "/manifest.json".data := by
      have h1 : (outdir.data ++ ("/session_".data ++ session_id.data))
          <+: (outdir.data ++ "/manifest.json".data) := by
        simp only [sessionDirOf, String.data_append, List.append_assoc] at hpre
        exact hpre
      exact (List.prefix_append_right_inj outdir.data).mp h1
    have h2 : "/session_".data <+: "/manifest.json".data :=
      (List.prefix_append _ session_id.data).trans hpre'
    exact absurd h2 (by decide)
  · simp [safe_write_text]

/-- Witness for C3 (amended): the persisted path at a concrete successful
run. -/
theorem manifest_persisted_at_root_witness :
    ((process_pdf ⟨false, false, false⟩ { openOk := true, pages := [] }
        { start_page := 1, end_page := 0, ocr_threshold := 40, dpi := 300,
          ocr_lang := "eng", ocr_psm := "3", ocr_oem := "3",
          table_order := ["camelot", "tabula"], auto_cleanup := false,
          max_sessions := 5, max_age_hours := 24 }
        "in.pdf" "out" "abc" "t" false
        { rootExists := false, iterFails := false, entries := [] } 0).2.toOption.map
      (fun o => o.persistedManifestPath)) = some ("out" ++ "/manifest.json") :=
  (manifest_persisted_at_root ⟨false, false, false⟩ { openOk := true, pages := [] }
    { start_page := 1, end_page := 0, ocr_threshold := 40, dpi := 300,
      ocr_lang := "eng", ocr_psm := "3", ocr_oem := "3",
      table_order := ["camelot", "tabula"], auto_cleanup := false,
      max_sessions := 5, max_age_hours := 24 }
    "in.pdf" "out" "abc" "t" false
    { rootExists := false, iterFails := false, entries := [] } 0
    (fun _ => none) "m" rfl).1

/-- The fold over the removal list never changes `sessions_found`. -/
theorem foldl_removeOneSession_found (l : List (SessionDir × String)) (acc : CleanupStats) :
    (l.foldl removeOneSession acc).sessions_found = acc.sessions_found := by
  induction l generalizing acc with
  | nil => rfl
  | cons p l ih =>
    rw [List.foldl_cons, ih]
    unfold removeOneSession
    by_cases hp : p.1.rmtreeFails = true <;> simp [hp]

/-- C10 counterexample: with two session directories where one `stat` raises,
`_cleanup_old_sessions` returns statistics with `sessions_found = 2`,
`sessions_removed = 0` but `sessions_kept = 0` — the claimed invariant
`sessions_kept = sessions_found - sessions_removed` fails because the
exception skips the final `sessions_kept` assignment. -/
theorem cleanup_kept_mismatch_ce :
    ¬ ((cleanup_old_sessions
        { rootExists := true, iterFails := false,
          entries :=
            [{ name := "session_a", isDir := true, statFails := false, mtime := 0,
               sizeBytes := 0, rmtreeFails := false },
             { name := "session_b", isDir := true, statFails := true, mtime := 0,
               sizeBytes := 0, rmtreeFails := false }] }
        0 5 24).1.sessions_kept
      = (cleanup_old_sessions
        { rootExists := true, iterFails := false,
          entries :=
            [{ name := "session_a", isDir := true, statFails := false, mtime := 0,
               sizeBytes := 0, rmtreeFails := false },
             { name := "session_b", isDir := true, statFails := true, mtime := 0,
               sizeBytes := 0, rmtreeFails := false }] }
        0 5 24).1.sessions_found
        - (cleanup_old_sessions
        { rootExists := true, iterFails := false,
          entries :=
            [{ name := "session_a", isDir := true, statFails := false, mtime := 0,
               sizeBytes := 0, rmtreeFails := false },
             { name := "session_b", isDir := true, statFails := true, mtime := 0,
               sizeBytes := 0, rmtreeFails := false }] }
        0 5 24).1.sessions_removed) := by
  decide

/-- C10 (amended): the cleanup function is total — every exception in
enumeration, sorting, size computation or deletion is caught and it always
returns a statistics record; `sessions_kept = sessions_found -
sessions_removed` holds whenever no `stat` failure interrupts the body (in
particular deletion failures do not break it), while a `stat` failure with two
or more sessions is recorded as a cleanup_error reason and leaves
`sessions_kept` at 0. -/
theorem cleanup_total_kept_invariant (st : OutputRootState) (now : Rat)
    (max_sessions : Nat) (max_age_hours : Rat) :
    ((st.entries.filter isSessionEntry).all (fun d => !d.statFails) = true →
      (cleanup_old_sessions st now max_sessions max_age_hours).1.sessions_kept
        = (cleanup_old_sessions st now max_sessions max_age_hours).1.sessions_found
          - (cleanup_old_sessions st now max_sessions max_age_hours).1.sessions_removed)
    ∧ (st.rootExists = true → st.iterFails = false →
        (st.entries.filter isSessionEntry).any (fun d => d.statFails) = true →
        2 ≤ (st.entries.filter isSessionEntry).length →
        (cleanup_old_sessions st now max_sessions max_age_hours).1.sessions_kept = 0
        ∧ "cleanup_error:stat"
            ∈ (cleanup_old_sessions st now max_sessions max_age_hours).1.cleanup_reason) := by
  constructor
  · intro hall
    have hstat : (st.entries.filter isSessionEntry).any (fun d => d.statFails) = false := by
      rw [List.any_eq_false]
      intro d hd
      have := List.all_eq_true.mp hall d hd
      simp at this
      simp [this]
    unfold cleanup_old_sessions
    by_cases hroot : st.rootExists = false
    · rw [if_pos hroot]
      rfl
    · rw [if_neg hroot]
      by_cases hit : st.iterFails = true
      · rw [if_pos hit]
        rfl
      · rw [if_neg hit]
        by_cases hle : (st.entries.filter isSessionEntry).length ≤ 1
        · rw [if_pos hle]
          simp [initCleanupStats]
        · rw [if_neg hle, if_neg (by simp [hstat])]
          simp [foldl_removeOneSession_found, initCleanupStats]
  · intro hroot hiter hstat hlen
    unfold cleanup_old_sessions
    rw [if_neg (by simp [hroot]), if_neg (by simp [hiter]), if_neg (by omega),
      if_pos hstat]
    exact ⟨rfl, by simp⟩

/-- Witness for C10 (amended): a state with no stat failures satisfies the
kept invariant. -/
theorem cleanup_total_kept_invariant_witness :
    (cleanup_old_sessions
        { rootExists := true, iterFails := false,
          entries := [{ name := "session_a", isDir := true, statFails := false, mtime := 0,
                        sizeBytes := 0, rmtreeFails := false }] }
        0 5 24).1.sessions_kept
      = (cleanup_old_sessions
          { rootExists := true, iterFails := false,
            entries := [{ name := "session_a", isDir := true, statFails := false, mtime := 0,
                          sizeBytes := 0, rmtreeFails := false }] }
          0 5 24).1.sessions_found
        - (cleanup_old_sessions
            { rootExists := true, iterFails := false,
              entries := [{ name := "session_a", isDir := true, statFails := false, mtime := 0,
                            sizeBytes := 0, rmtreeFails := false }] }
            0 5 24).1.sessions_removed :=
  (cleanup_total_kept_invariant
    { rootExists := true, iterFails := false,
      entries := [{ name := "session_a", isDir := true, statFails := false, mtime := 0,
                    sizeBytes := 0, rmtreeFails := false }] }
    0 5 24).1 (by decide)

/-- Counter/total effect of the removal fold when no deletion fails. -/
theorem foldl_removeOneSession_ok (l : List (SessionDir × String)) (acc : CleanupStats)
    (h : ∀ p ∈ l, p.1.rmtreeFails = false) :
    (l.foldl removeOneSession acc).sessions_removed = acc.sessions_removed + l.length
    ∧ (l.foldl removeOneSession acc).space_freed_mb
        = acc.space_freed_mb + (l.map (fun p => sizeMB p.1)).sum
    ∧ (l.foldl removeOneSession acc).sessions_found = acc.sessions_found := by
  induction l generalizing acc with
  | nil => simp
  | cons p l ih =>
    have hp : p.1.rmtreeFails = false := h p (by simp)
    have hrest : ∀ q ∈ l, q.1.rmtreeFails = false := fun q hq => h q (by simp [hq])
    obtain ⟨h1, h2, h3⟩ := ih _ hrest
    rw [List.foldl_cons]
    have hstep : removeOneSession acc p
        = { acc with
            sessions_removed := acc.sessions_removed + 1
            space_freed_mb := acc.space_freed_mb + sizeMB p.1
            cleanup_reason := acc.cleanup_reason ++ [p.1.name ++ ":" ++ p.2] } := by
      unfold removeOneSession
      rw [if_neg (by simp [hp])]
    rw [hstep] at *
    refine ⟨by rw [h1]; simp; omega, by rw [h2]; simp; ring, by rw [h3]⟩

/-- The value of `_cleanup_old_sessions` in its main branch (root exists,
enumeration succeeds, at least two sessions, no stat failure). -/
theorem cleanup_main_eq (st : OutputRootState) (now : Rat) (maxS : Nat) (maxAge : Rat)
    (hroot : st.rootExists = true) (hiter : st.iterFails = false)
    (hany : (st.entries.filter isSessionEntry).any (fun d => d.statFails) = false)
    (hgt : ¬ (st.entries.filter isSessionEntry).length ≤ 1) :
    cleanup_old_sessions st now maxS maxAge
      = (let dirs := st.entries.filter isSessionEntry
         let sorted := List.insertionSort (fun a b => b.mtime ≤ a.mtime) dirs
         let ageRemove := sorted.filter (fun d => decide (sessionAgeHours now d > maxAge))
         let excess := if maxS < dirs.length then
             (sorted.drop maxS).filter (fun d => decide (d ∉ ageRemove)) else []
         let toRemove := ageRemove.map (fun d => (d, "aged"))
           ++ excess.map (fun d => (d, "excess_count"))
         let final := toRemove.foldl removeOneSession
           { initCleanupStats with sessions_found := dirs.length }
         ({ final with sessions_kept := dirs.length - final.sessions_removed },
          (toRemove.map Prod.fst).filter (fun d => !d.rmtreeFails))) := by
  unfold cleanup_old_sessions
  rw [if_neg (by simp [hroot]), if_neg (by simp [hiter]), if_neg hgt,
    if_neg (by simp [hany])]

/-- C8: under the union of the two retention rules — (a) age strictly greater
than `max_age_hours`, (b) rank beyond the newest `max_sessions` in
newest-first order — the retention manager removes exactly those sessions,
each at most once, reports `space_freed_mb` as the sum of each removed
directory's size computed before deletion, and is a no-op for one or zero
session directories.  (Hypotheses: the root exists, enumeration and every
`stat`/`rmtree` succeed, and — as the file system guarantees for directory
entries — the session list has no duplicates.) -/
theorem retention_removes_union (st : OutputRootState) (now : Rat)
    (max_sessions : Nat) (max_age_hours : Rat)
    (hroot : st.rootExists = true) (hiter : st.iterFails = false)
    (hok : (st.entries.filter isSessionEntry).all
        (fun d => !d.statFails && !d.rmtreeFails) = true)
    (hnd : (st.entries.filter isSessionEntry).Nodup) :
    ((st.entries.filter isSessionEntry).length ≤ 1 →
      (cleanup_old_sessions st now max_sessions max_age_hours).2 = []
        ∧ (cleanup_old_sessions st now max_sessions max_age_hours).1.sessions_removed = 0)
    ∧ (2 ≤ (st.entries.filter isSessionEntry).length →
        (cleanup_old_sessions st now max_sessions max_age_hours).2.Perm
            ((st.entries.filter isSessionEntry).filter (fun d =>
              decide (sessionAgeHours now d > max_age_hours)
                || decide (d ∈ (List.insertionSort (fun a b => b.mtime ≤ a.mtime)
                      (st.entries.filter isSessionEntry)).drop max_sessions)))
          ∧ (cleanup_old_sessions st now max_sessions max_age_hours).2.Nodup
          ∧ (cleanup_old_sessions st now max_sessions max_age_hours).1.space_freed_mb
              = ((cleanup_old_sessions st now max_sessions max_age_hours).2.map sizeMB).sum
          ∧ (cleanup_old_sessions st now max_sessions max_age_hours).1.sessions_removed
              = (cleanup_old_sessions st now max_sessions max_age_hours).2.length
          ∧ (cleanup_old_sessions st now max_sessions max_age_hours).1.sessions_found
              = (st.entries.filter isSessionEntry).length
          ∧ (cleanup_old_sessions st now max_sessions max_age_hours).1.sessions_kept
              = (st.entries.filter isSessionEntry).length
                - (cleanup_old_sessions st now max_sessions max_age_hours).2.length) := by
  have hall := List.all_eq_true.mp hok
  have hrm : ∀ d ∈ st.entries.filter isSessionEntry, d.rmtreeFails = false := by
    intro d hd
    have := hall d hd
    simp at this
    exact this.2
  have hstat : ∀ d ∈ st.entries.filter isSessionEntry, d.statFails = false := by
    intro d hd
    have := hall d hd
    simp at this
    exact this.1
  constructor
  · intro hle
    unfold cleanup_old_sessions
    rw [if_neg (by simp [hroot]), if_neg (by simp [hiter]), if_pos hle]
    exact ⟨rfl, rfl⟩
  · intro h2
    have hgt : ¬ (st.entries.filter isSessionEntry).length ≤ 1 := by omega
    have hanyf : (st.entries.filter isSessionEntry).any (fun d => d.statFails) = false := by
      rw [List.any_eq_false]
      intro d hd
      simp [hstat d hd]
    rw [cleanup_main_eq st now max_sessions max_age_hours hroot hiter hanyf hgt]
    dsimp only
    set dirs := st.entries.filter isSessionEntry with hdirs
    set sorted := List.insertionSort (fun a b => b.mtime ≤ a.mtime) dirs with hsorted
    set age := fun d : SessionDir => decide (sessionAgeHours now d > max_age_hours) with hage
    set A := sorted.filter age with hA
    set dropped := sorted.drop max_sessions with hdrop
    set E := (if max_sessions < dirs.length then
        dropped.filter (fun d => decide (d ∉ A)) else []) with hE
    set toRemove := A.map (fun d => (d, "aged")) ++ E.map (fun d => (d, "excess_count"))
      with hTR
    have hpermsd : sorted.Perm dirs := List.perm_insertionSort _ _
    have hndsorted : sorted.Nodup := hpermsd.nodup_iff.mpr hnd
    have hsubA : ∀ d ∈ A, d ∈ dirs := fun d hd =>
      hpermsd.subset (List.mem_filter.mp (hA ▸ hd)).1
    have hsubE : ∀ d ∈ E, d ∈ dirs := by
      intro d hd
      rw [hE] at hd
      by_cases hms : max_sessions < dirs.length
      · rw [if_pos hms] at hd
        exact hpermsd.subset ((List.drop_sublist _ _).subset
          (List.mem_filter.mp hd).1)
      · rw [if_neg hms] at hd
        exact absurd hd (List.not_mem_nil d)
    have hTRfst : toRemove.map Prod.fst = A ++ E := by
      rw [hTR, List.map_append, List.map_map, List.map_map]
      rw [show (Prod.fst ∘ fun d : SessionDir => (d, "aged")) = id from rfl,
        show (Prod.fst ∘ fun d : SessionDir => (d, "excess_count")) = id from rfl,
        List.map_id, List.map_id]
    have hrmok : ∀ p ∈ toRemove, p.1.rmtreeFails = false := by
      intro p hp
      have hfst : p.1 ∈ toRemove.map Prod.fst := List.mem_map_of_mem Prod.fst hp
      rw [hTRfst] at hfst
      rcases List.mem_append.mp hfst with hmem | hmem
      · exact hrm _ (hsubA _ hmem)
      · exact hrm _ (hsubE _ hmem)
    have hremoved : (toRemove.map Prod.fst).filter (fun d => !d.rmtreeFails) = A ++ E := by
      rw [hTRfst]
      apply List.filter_eq_self.mpr
      intro d hd
      rcases List.mem_append.mp hd with hmem | hmem
      · simp [hrm _ (hsubA _ hmem)]
      · simp [hrm _ (hsubE _ hmem)]
    have hperm1 : ((toRemove.map Prod.fst).filter (fun d => !d.rmtreeFails)).Perm
        (dirs.filter (fun d => age d || decide (d ∈ dropped))) := by
      rw [hremoved]
      have hfilterperm : (sorted.filter (fun d => age d || decide (d ∈ dropped))).Perm
          (dirs.filter (fun d => age d || decide (d ∈ dropped))) :=
        hpermsd.filter _
      refine List.Perm.trans ?_ hfilterperm
      by_cases hms : max_sessions < dirs.length
      · have hEeq : E = dropped.filter (fun d => !(age d)) := by
          rw [hE, if_pos hms]
          apply List.filter_congr
          intro d hd
          have hds : d ∈ sorted := (List.drop_sublist _ _).subset hd
          by_cases ha : age d = true
          · have hmem : d ∈ A := by
              rw [hA]
              exact List.mem_filter.mpr ⟨hds, ha⟩
            have hdec : decide (d ∉ A) = false := by simp [hmem]
            rw [hdec, ha]
            rfl
          · have ha' : age d = false := by
              revert ha
              cases age d <;> simp
            have hmem : d ∉ A := by
              rw [hA]
              intro hc
              have hc2 := (List.mem_filter.mp hc).2
              rw [ha'] at hc2
              simp at hc2
            have hdec : decide (d ∉ A) = true := by simp [hmem]
            rw [hdec, ha']
            rfl
        have hsplit : sorted = sorted.take max_sessions ++ dropped := by
          rw [hdrop, List.take_append_drop]
        have hdisj : (sorted.take max_sessions).Disjoint dropped := by
          have hndapp : (sorted.take max_sessions ++ dropped).Nodup := by
            rw [← hsplit]
            exact hndsorted
          exact (List.nodup_append.mp hndapp).2.2
        have hAsplit : A = (sorted.take max_sessions).filter age ++ dropped.filter age := by
          rw [hA]
          conv_lhs => rw [hsplit]
          rw [List.filter_append]
        have htake : (sorted.take max_sessions).filter (fun d => age d || decide (d ∈ dropped))
            = (sorted.take max_sessions).filter age := by
          apply List.filter_congr
          intro d hd
          have hnd2 : d ∉ dropped := fun hc => hdisj hd hc
          simp [hnd2]
        have hdropfull : dropped.filter (fun d => age d || decide (d ∈ dropped)) = dropped := by
          apply List.filter_eq_self.mpr
          intro d hd
          simp [hd]
        have hsortedfilter : sorted.filter (fun d => age d || decide (d ∈ dropped))
            = (sorted.take max_sessions).filter age ++ dropped := by
          conv_lhs => rw [hsplit]
          rw [List.filter_append, htake, hdropfull]
        rw [hsortedfilter, hAsplit, hEeq, List.append_assoc]
        exact (List.filter_append_perm age dropped).append_left _
      · have hEnil : E = [] := by
          rw [hE, if_neg hms]
        have hdropnil : dropped = [] := by
          rw [hdrop]
          apply List.drop_eq_nil_of_le
          rw [hpermsd.length_eq]
          omega
        have hagree : sorted.filter (fun d => age d || decide (d ∈ dropped))
            = sorted.filter age := by
          apply List.filter_congr
          intro d _
          simp [hdropnil]
        rw [hagree, hEnil, List.append_nil, hA]
    obtain ⟨hrem, hfreed, hfound⟩ := foldl_removeOneSession_ok toRemove
      { initCleanupStats with sessions_found := dirs.length } hrmok
    have hlenrm : ((toRemove.map Prod.fst).filter (fun d => !d.rmtreeFails)).length
        = toRemove.length := by
      rw [hremoved, hTR]
      simp
    refine ⟨hperm1, ?_, ?_, ?_, ?_, ?_⟩
    · exact hperm1.nodup_iff.mpr (hnd.filter _)
    · rw [hfreed, hremoved]
      have hmapsz : toRemove.map (fun p => sizeMB p.1) = (A ++ E).map sizeMB := by
        rw [← hTRfst, List.map_map]
        rfl
      rw [hmapsz]
      simp [initCleanupStats]
    · rw [hrem, hlenrm]
      simp [initCleanupStats]
    · exact hfound
    · rw [hrem, hlenrm]
      simp [initCleanupStats]

/-- The spec's retention example: five sessions aged 0, 12, 18, 30 and 48
hours (now = 172800 s), all healthy, distinct names. -/
def c8ExampleRoot : OutputRootState :=
  { rootExists := true
    iterFails := false
    entries :=
      [{ name := "session_a0", isDir := true, statFails := false, mtime := 172800,
         sizeBytes := 10, rmtreeFails := false },
       { name := "session_a1", isDir := true, statFails := false, mtime := 129600,
         sizeBytes := 20, rmtreeFails := false },
       { name := "session_a2", isDir := true, statFails := false, mtime := 108000,
         sizeBytes := 30, rmtreeFails := false },
       { name := "session_a3", isDir := true, statFails := false, mtime := 64800,
         sizeBytes := 40, rmtreeFails := false },
       { name := "session_a4", isDir := true, statFails := false, mtime := 0,
         sizeBytes := 50, rmtreeFails := false }] }

/-- Witness for C8: the spec's example with `max_sessions = 5` and
`max_age_hours = 24`; all hypotheses hold concretely, and the removed set is
exactly the union of the two rules. -/
theorem retention_removes_union_witness :
    (cleanup_old_sessions c8ExampleRoot 172800 5 24).2.Perm
        ((c8ExampleRoot.entries.filter isSessionEntry).filter (fun d =>
          decide (sessionAgeHours 172800 d > 24)
            || decide (d ∈ (List.insertionSort (fun a b => b.mtime ≤ a.mtime)
                  (c8ExampleRoot.entries.filter isSessionEntry)).drop 5)))
      ∧ (cleanup_old_sessions c8ExampleRoot 172800 5 24).2.Nodup
      ∧ (cleanup_old_sessions c8ExampleRoot 172800 5 24).1.space_freed_mb
          = ((cleanup_old_sessions c8ExampleRoot 172800 5 24).2.map sizeMB).sum
      ∧ (cleanup_old_sessions c8ExampleRoot 172800 5 24).1.sessions_removed
          = (cleanup_old_sessions c8ExampleRoot 172800 5 24).2.length
      ∧ (cleanup_old_sessions c8ExampleRoot 172800 5 24).1.sessions_found
          = (c8ExampleRoot.entries.filter isSessionEntry).length
      ∧ (cleanup_old_sessions c8ExampleRoot 172800 5 24).1.sessions_kept
          = (c8ExampleRoot.entries.filter isSessionEntry).length
            - (cleanup_old_sessions c8ExampleRoot 172800 5 24).2.length :=
  (retention_removes_union c8ExampleRoot 172800 5 24 rfl rfl (by decide) (by decide)).2
    (by decide)

end PdfXml
